import Mathlib

/-!
Verification of the note/post service (FastAPI app under `app/`):
password-hashing credential store, JWT token issuance/verification,
per-request identity resolution (`app/auth.py`), the user router
(`app/routers/users.py`), and the per-user TTL post cache with explicit
invalidation (`app/routers/posts.py`).

The Python code is shallowly embedded: machine state (database rows, the
in-process cache) is passed explicitly, fallible handlers return
`Except HTTPError _` or a `(response, state)` pair, and Python exception
propagation inside `get_current_user` (including the fact that FastAPI's
`HTTPException` is a subclass of `Exception` and is therefore intercepted
by the `except Exception` catch-all) is modelled by an explicit inner
exception type.  bcrypt is modelled as an ideal salted hash: an injective
constructor pairing salt and password, with `checkpw` comparing against
it; one-wayness is a property of the real primitive, outside the model.
Timestamps are integers (seconds); `timedelta(hours=1) = 3600`,
`timedelta(days=1) = 86400`, the cache TTL is `300`.
-/

namespace App

/-- Model of a FastAPI `HTTPException`: status code, `detail` string, and
whether the `WWW-Authenticate: Bearer` header was attached. -/
structure HTTPError where
  statusCode : Nat
  detail : String
  wwwAuthenticateBearer : Bool
  deriving DecidableEq, Repr

/-- JWT claim set used by this app: optional `sub` and `exp` claims
(`create_access_token` copies the caller's data and sets `exp`). -/
structure Claims where
  sub : Option String
  exp : Option Int
  deriving DecidableEq, Repr

/-- A wire token: either a well-formed JWT signed with some key, or a
string that does not decode as a JWT at all (malformed claims / garbage). -/
inductive Token where
  | signed (claims : Claims) (key : String)
  | malformed (raw : String)
  deriving DecidableEq, Repr

/-- `app/auth.py` `create_access_token(data, expires_delta)`: copies
`data` and sets `exp` from
`now + expires_delta if expires_delta else now + timedelta(days=1)`.
That is a Python truthiness test on an `Optional[timedelta]`: both an
absent delta and a present-but-zero `timedelta(0)` (falsy) fall back to
the 1-day default.  The result is signed with the process-wide
`SECRET_KEY`. -/
def create_access_token (key : String) (data : Claims) (now : Int)
    (expires_delta : Option Int) : Token :=
  let expire : Int :=
    match expires_delta with
    | some d => if d = 0 then now + 86400 else now + d
    | none => now + 86400
  Token.signed { data with exp := some expire } key

/-- Outcome of `jwt.decode`: the payload, or `ExpiredSignatureError`, or
`InvalidTokenError` (bad signature / undecodable claims). -/
inductive JwtOutcome where
  | ok (payload : Claims)
  | expiredSignatureError
  | invalidTokenError
  deriving DecidableEq, Repr

/-- PyJWT `jwt.decode(token, key, algorithms=[...])` at time `now`:
signature must verify against `key`; if an `exp` claim is present it must
still be in the future (`exp <= now` raises `ExpiredSignatureError`). -/
def jwt_decode (token : Token) (key : String) (now : Int) : JwtOutcome :=
  match token with
  | .malformed _ => .invalidTokenError
  | .signed claims k =>
    if k ≠ key then .invalidTokenError
    else
      match claims.exp with
      | some e => if e ≤ now then .expiredSignatureError else .ok claims
      | none => .ok claims

/-- `app/auth.py` `decode_jwt_token(token)`: wraps `jwt.decode`,
translating `ExpiredSignatureError` and `InvalidTokenError` into 401
`HTTPException`s carrying `WWW-Authenticate: Bearer`. -/
def decode_jwt_token (key : String) (now : Int) (token : Token) :
    Except HTTPError Claims :=
  match jwt_decode token key now with
  | .ok payload => .ok payload
  | .expiredSignatureError => .error ⟨401, "Token has expired", true⟩
  | .invalidTokenError => .error ⟨401, "Invalid token claims", true⟩

/-- Ideal model of a bcrypt digest: the salt together with the hashed
password.  Injectivity of the constructor models collision-freeness;
one-wayness is a property of the real bcrypt primitive, not of the model. -/
structure BcryptDigest where
  salt : Nat
  ofPassword : String
  deriving DecidableEq, Repr

/-- `bcrypt.hashpw(password, gensalt(rounds=12))`, as called by
`passlib`'s `pwd_context.hash` and by `User.set_password`. -/
def bcrypt_hashpw (password : String) (salt : Nat) : BcryptDigest :=
  ⟨salt, password⟩

/-- `bcrypt.checkpw(password, stored)`: re-hash with the stored salt and
compare. -/
def bcrypt_checkpw (password : String) (stored : BcryptDigest) : Bool :=
  bcrypt_hashpw password stored.salt == stored

/-- `app/models.py` `User` row: integer primary key, unique email, and
the stored password digest (a `BcryptDigest`, never a plaintext string). -/
structure User where
  id : Nat
  email : String
  hashed_password : BcryptDigest
  deriving DecidableEq, Repr

/-- `app/models.py` `User.verify_password`: `bcrypt.checkpw` against the
stored hash. -/
def User.verify_password (u : User) (password : String) : Bool :=
  bcrypt_checkpw password u.hashed_password

/-- `app/models.py` `Post` row: integer primary key, owner foreign key,
text. -/
structure Post where
  id : Nat
  user_id : Nat
  text : String
  deriving DecidableEq, Repr

/-- The relational store: user rows, post rows, and the autoincrement
counters for the two integer primary keys. -/
structure DB where
  users : List User
  posts : List Post
  next_user_id : Nat
  next_post_id : Nat
  deriving DecidableEq, Repr

/-- `db.query(User).filter(User.email == email).first()`. -/
def DB.findUserByEmail (db : DB) (email : String) : Option User :=
  db.users.find? (fun u => u.email == email)

/-- `app/routers/users.py` `signup(request, db)`: rejects a duplicate
email with 400 "Email already registered" (leaving the store untouched),
otherwise hashes the password with `pwd_context.hash` (bcrypt, fresh
`salt`), inserts the one new `User` row, commits, and issues a token with
`expires_delta = timedelta(hours=1)`.  The commit-failure 500 path is
external nondeterminism (database I/O) and is not modelled; the returned
pair is (response, resulting store). -/
def signup (key : String) (db : DB) (email password : String) (salt : Nat)
    (now : Int) : Except HTTPError Token × DB :=
  match db.findUserByEmail email with
  | some _ => (.error ⟨400, "Email already registered", false⟩, db)
  | none =>
    let hashed := bcrypt_hashpw password salt
    let user : User := ⟨db.next_user_id, email, hashed⟩
    let db' : DB := { db with
      users := db.users ++ [user], next_user_id := db.next_user_id + 1 }
    let access_token :=
      create_access_token key ⟨some user.email, none⟩ now (some 3600)
    (.ok access_token, db')

/-- `app/routers/users.py` `login(request, db)`: looks the user up by
email; `if not user or not user.verify_password(...)` raises 401
"Invalid credentials" with `WWW-Authenticate: Bearer`; otherwise issues a
token with `expires_delta = timedelta(hours=1)`. -/
def login (key : String) (db : DB) (email password : String) (now : Int) :
    Except HTTPError Token :=
  match db.findUserByEmail email with
  | none => .error ⟨401, "Invalid credentials", true⟩
  | some user =>
    if ¬ user.verify_password password then
      .error ⟨401, "Invalid credentials", true⟩
    else
      .ok (create_access_token key ⟨some user.email, none⟩ now (some 3600))

/-- Python `str.split(" ")` on the character list: cut at every single
space, keeping empty fields (so `"".split(" ") == [""]` and
`"a  b".split(" ") == ["a", "", "b"]`). -/
def pySplitSpaceChars : List Char → List (List Char)
  | [] => [[]]
  | c :: cs =>
    if c = ' ' then [] :: pySplitSpaceChars cs
    else
      match pySplitSpaceChars cs with
      | w :: ws => (c :: w) :: ws
      | [] => [[c]]

/-- Python `str.split(" ")` with an explicit single-space separator. -/
def pySplitSpace (s : String) : List String :=
  (pySplitSpaceChars s.data).map (fun w => String.mk w)

/-- An exception in flight inside `get_current_user`'s `try` block:
either the `ValueError` from unpacking `authorization.split(" ")` into
two names, or an `HTTPException` (raised directly or propagated out of
`decode_jwt_token`). -/
inductive AuthExc where
  | valueError
  | httpException (e : HTTPError)
  deriving DecidableEq, Repr

/-- The body of `get_current_user`'s `try` block, before the `except`
clauses run.  `wire` maps the header's token substring to the `Token` it
deserializes to (garbage strings map to `Token.malformed _`). -/
def get_current_user_try (key : String) (now : Int) (db : DB)
    (wire : String → Token) (authorization : String) : Except AuthExc User :=
  match pySplitSpace authorization with
  | [scheme, token] =>
    if scheme ≠ "Bearer" then
      .error (.httpException ⟨401, "Invalid token type", true⟩)
    else
      match decode_jwt_token key now (wire token) with
      | .error e => .error (.httpException e)
      | .ok payload =>
        match payload.sub with
        | none => .error (.httpException ⟨401, "Invalid credentials", true⟩)
        | some email =>
          match db.findUserByEmail email with
          | none => .error (.httpException ⟨401, "Invalid credentials", true⟩)
          | some user => .ok user
  | _ => .error .valueError

/-- `str(e)` for a starlette `HTTPException`: `"{status_code}: {detail}"`
(with the braces denoting Python interpolation of the two fields). -/
def httpExceptionStr (e : HTTPError) : String :=
  toString e.statusCode ++ ": " ++ e.detail

/-- `app/auth.py` `get_current_user(authorization, db)`.  Python
semantics of the handler chain: `except ValueError` turns the unpacking
failure into 400 "Authorization header is malformed"; `except Exception`
catches everything else — including the `HTTPException`s deliberately
raised with status 401 inside the `try` block, since FastAPI's
`HTTPException` subclasses `Exception` — and re-raises 500 with
`detail = "An unexpected error occurred: " + str(e)`. -/
def get_current_user (key : String) (now : Int) (db : DB)
    (wire : String → Token) (authorization : String) :
    Except HTTPError User :=
  match get_current_user_try key now db wire authorization with
  | .ok user => .ok user
  | .error .valueError =>
    .error ⟨400, "Authorization header is malformed", true⟩
  | .error (.httpException e) =>
    .error ⟨500, "An unexpected error occurred: " ++ httpExceptionStr e, true⟩

/-- One entry of the `cachetools.TTLCache(maxsize=1000, ttl=300)` in
`app/routers/posts.py`: the cached post list and its absolute expiry
(insertion time + 300 s).  An entry is only served while `now < expires`. -/
structure CacheEntry where
  value : List Post
  expires : Int
  deriving DecidableEq, Repr

/-- The cache itself: an association list keyed by user email.  LRU
eviction at `maxsize` is not modelled; like expiry it only ever removes
entries, which cannot make a served entry staler. -/
def Cache := List (String × CacheEntry)

instance : DecidableEq Cache := inferInstanceAs (DecidableEq (List _))

/-- Raw association-list lookup: the entry stored under `k`, live or
expired. -/
def Cache.entry (c : Cache) (k : String) : Option CacheEntry :=
  (List.find? (fun p => p.1 == k) c).map Prod.snd

/-- `email in cache` followed by `cache[email]`: the value under `k` if
an entry is present and unexpired at `now`. -/
def Cache.read (c : Cache) (k : String) (now : Int) : Option (List Post) :=
  match c.entry k with
  | some e => if now < e.expires then some e.value else none
  | none => none

/-- `cache.pop(email, None)`: remove any entry under `k`. -/
def Cache.pop (c : Cache) (k : String) : Cache :=
  List.filter (fun p => p.1 ≠ k) c

/-- `cache[email] = posts`: store `posts` under `k` with expiry
`now + 300`, replacing any previous entry. -/
def Cache.set (c : Cache) (k : String) (v : List Post) (now : Int) : Cache :=
  (k, ⟨v, now + 300⟩) :: Cache.pop c k

/-- `db.query(Post).filter(Post.user_id == int(current_user.id)).all()`. -/
def DB.postsOf (db : DB) (uid : Nat) : List Post :=
  db.posts.filter (fun p => p.user_id == uid)

/-- The state a posts-router request touches: the durable store and the
in-process cache. -/
structure AppState where
  db : DB
  cache : Cache
  deriving DecidableEq

/-- `app/routers/posts.py` `create_post(request, current_user, db)`:
insert the new `Post` row (owner = caller), commit, then
`cache.pop(current_user.email, None)`.  Returns the created post and the
new state. -/
def create_post (s : AppState) (current_user : User) (text : String) :
    Post × AppState :=
  let post : Post := ⟨s.db.next_post_id, current_user.id, text⟩
  let db' : DB := { s.db with
    posts := s.db.posts ++ [post], next_post_id := s.db.next_post_id + 1 }
  (post, ⟨db', Cache.pop s.cache current_user.email⟩)

/-- `app/routers/posts.py` `read_posts(current_user, db)`: serve the
cached list when `current_user.email in cache`; otherwise query the
store, cache the result for 300 s, and return it. -/
def read_posts (s : AppState) (current_user : User) (now : Int) :
    List Post × AppState :=
  match Cache.read s.cache current_user.email now with
  | some posts => (posts, s)
  | none =>
    let posts := s.db.postsOf current_user.id
    (posts, { s with cache := Cache.set s.cache current_user.email posts now })

/-- `app/routers/posts.py` `delete_post(post_id, current_user, db)`:
`first()` over `Post.id == post_id and Post.user_id == current_user.id`;
404 "Post not found" (state untouched) when absent, otherwise delete the
row, commit, and `cache.pop(current_user.email, None)` (204 No Content,
modelled as `.ok ()`). -/
def delete_post (s : AppState) (current_user : User) (post_id : Nat) :
    Except HTTPError Unit × AppState :=
  match s.db.posts.find?
      (fun p => p.id == post_id && p.user_id == current_user.id) with
  | none => (.error ⟨404, "Post not found", false⟩, s)
  | some post =>
    let db' : DB := { s.db with
      posts := s.db.posts.filter (fun p => p.id ≠ post.id) }
    (.ok (), ⟨db', Cache.pop s.cache current_user.email⟩)

/-- A posts-router request, tagged with the identity the resolver
produced and the wall-clock second at which it runs. -/
inductive Op where
  | read (u : User) (now : Int)
  | create (u : User) (text : String)
  | delete (u : User) (post_id : Nat)
  deriving DecidableEq, Repr

/-- Single-process sequential execution of one request against the shared
state (responses discarded). -/
def stepOp (s : AppState) (op : Op) : AppState :=
  match op with
  | .read u now => (read_posts s u now).2
  | .create u text => (create_post s u text).2
  | .delete u pid => (delete_post s u pid).2

/-- Run a request trace left to right. -/
def runOps (s : AppState) (ops : List Op) : AppState :=
  ops.foldl stepOp s

/-- The identity a request runs under. -/
def Op.user : Op → User
  | .read u _ => u
  | .create u _ => u
  | .delete u _ => u

/-- The registered identities are pairwise distinct in both unique
columns: no two share an email (DB unique constraint) and no two share a
primary key. -/
def UsersWF (us : List User) : Prop :=
  (us.map User.email).Nodup ∧ (us.map User.id).Nodup

/-- Cache coherence: every entry (live or not) is keyed by a registered
user's email and holds exactly that user's currently committed posts. -/
def CacheOK (us : List User) (s : AppState) : Prop :=
  ∀ k e, s.cache.entry k = some e →
    ∃ w, w ∈ us ∧ w.email = k ∧ e.value = s.db.postsOf w.id

/-- Reachable-state well-formedness: post primary keys stay below the
autoincrement counter and are unique, and the cache is coherent. -/
def StateWF (us : List User) (s : AppState) : Prop :=
  (∀ p ∈ s.db.posts, p.id < s.db.next_post_id) ∧
  (s.db.posts.map Post.id).Nodup ∧
  CacheOK us s

/-- A store holding the single registered user "a@x.com". -/
def dbOneUser : DB := ⟨[⟨1, "a@x.com", ⟨5, "pw"⟩⟩], [], 2, 1⟩

/-- The sample registered user. -/
def u0 : User := ⟨1, "a@x.com", ⟨5, "pw"⟩⟩

/-- Initial state for the sample trace: one user, no posts, empty cache. -/
def s0c : AppState := ⟨⟨[u0], [], 2, 1⟩, []⟩

/-- A sample trace: a GET that populates the cache, two creates, two more
GETs, and a delete of the first post — each mutation inside the previous
cache entry's 300-second window. -/
def opsc : List Op :=
  [.read u0 0, .create u0 "hi", .read u0 20, .create u0 "yo",
   .read u0 30, .delete u0 1]

/-! ### Helper lemmas about the cache and the store -/

theorem Cache.entry_nil (k : String) : Cache.entry ([] : List (String × CacheEntry)) k = none := rfl

theorem Cache.entry_cons (x : String × CacheEntry) (l : Cache) (e : String) :
    Cache.entry (x :: l) e = if x.1 = e then some x.2 else Cache.entry l e := by
  by_cases h : x.1 = e
  · simp [Cache.entry, List.find?_cons, h]
  · simp [Cache.entry, List.find?_cons, h]

theorem Cache.pop_cons (x : String × CacheEntry) (l : Cache) (k : String) :
    Cache.pop (x :: l) k =
      if x.1 = k then Cache.pop l k else x :: Cache.pop l k := by
  by_cases h : x.1 = k <;> simp [Cache.pop, List.filter_cons, h]

theorem Cache.entry_pop_self (c : Cache) (k : String) :
    (Cache.pop c k).entry k = none := by
  have h : List.find? (fun p => p.1 == k) (Cache.pop c k) = none := by
    rw [List.find?_eq_none]
    intro x hx
    rcases List.mem_filter.mp hx with ⟨-, hne⟩
    simp only [decide_not, Bool.not_eq_eq_eq_not, Bool.not_true,
      decide_eq_false_iff_not] at hne
    simpa using hne
  simp [Cache.entry, h]

theorem Cache.entry_pop_ne (c : Cache) (k e : String) (he : e ≠ k) :
    (Cache.pop c k).entry e = c.entry e := by
  induction c with
  | nil => rfl
  | cons hd tl ih =>
    rw [Cache.pop_cons]
    by_cases h1 : hd.1 = k
    · rw [if_pos h1, ih, Cache.entry_cons,
        if_neg (fun hh => he (hh.symm.trans h1))]
    · rw [if_neg h1, Cache.entry_cons, Cache.entry_cons]
      by_cases h2 : hd.1 = e
      · simp [h2]
      · simp [h2, ih]

theorem Cache.entry_set_self (c : Cache) (k : String) (v : List Post) (now : Int) :
    (Cache.set c k v now).entry k = some ⟨v, now + 300⟩ := by
  simp [Cache.set, Cache.entry, List.find?_cons]

theorem Cache.entry_set_ne (c : Cache) (k e : String) (v : List Post)
    (now : Int) (he : e ≠ k) :
    (Cache.set c k v now).entry e = c.entry e := by
  have h2 : (k == e) = false := by simpa using fun h => he h.symm
  unfold Cache.set
  rw [show Cache.entry ((k, ⟨v, now + 300⟩) :: Cache.pop c k) e =
        Cache.entry (Cache.pop c k) e by simp [Cache.entry, List.find?_cons, h2]]
  exact Cache.entry_pop_ne c k e he

theorem Cache.read_none_of_entry_none (c : Cache) (k : String) (now : Int)
    (h : c.entry k = none) : Cache.read c k now = none := by
  simp [Cache.read, h]

theorem find?_append_of_none {α : Type} (p : α → Bool) (l₁ l₂ : List α)
    (h : l₁.find? p = none) : (l₁ ++ l₂).find? p = l₂.find? p := by
  rw [List.find?_append, h]; rfl

theorem find?_append_of_some {α : Type} (p : α → Bool) (l₁ l₂ : List α)
    (a : α) (h : l₁.find? p = some a) : (l₁ ++ l₂).find? p = some a := by
  rw [List.find?_append, h]; rfl

/-- A successful `signup` implies the email was fresh and pins down the
resulting store: the old rows plus exactly one new row holding the salted
bcrypt digest. -/
theorem signup_ok_inv (key : String) (db : DB) (e p : String) (salt : Nat)
    (now : Int) (tok : Token) (db' : DB)
    (h : signup key db e p salt now = (.ok tok, db')) :
    db.findUserByEmail e = none ∧
    db' = { db with
      users := db.users ++ [⟨db.next_user_id, e, bcrypt_hashpw p salt⟩],
      next_user_id := db.next_user_id + 1 } := by
  cases hfind : db.findUserByEmail e with
  | some u => simp [signup, hfind] at h
  | none =>
    simp only [signup, hfind] at h
    obtain ⟨-, h2⟩ := Prod.mk.injEq .. ▸ h
    exact ⟨rfl, h2.symm⟩

/-- After a successful `signup`, looking the email up finds the newly
inserted row. -/
theorem signup_ok_findUser (key : String) (db : DB) (e p : String)
    (salt : Nat) (now : Int) (tok : Token) (db' : DB)
    (h : signup key db e p salt now = (.ok tok, db')) :
    db'.findUserByEmail e = some ⟨db.next_user_id, e, bcrypt_hashpw p salt⟩ := by
  obtain ⟨hnone, hdb⟩ := signup_ok_inv key db e p salt now tok db' h
  subst hdb
  unfold DB.findUserByEmail at hnone ⊢
  rw [find?_append_of_none _ _ _ hnone]
  simp [List.find?_cons]

/-- `find?` for `Post.id == pid and Post.user_id == u.id` returns the
matching post itself when primary keys are unique. -/
theorem find?_owned_post (posts : List Post)
    (hnd : (posts.map Post.id).Nodup) (post : Post) (hmem : post ∈ posts)
    (pid : Nat) (u : User) (hpid : post.id = pid)
    (huid : post.user_id = u.id) :
    posts.find? (fun p => p.id == pid && p.user_id == u.id) = some post := by
  have hex : (posts.find? (fun p => p.id == pid && p.user_id == u.id)).isSome :=
    List.find?_isSome.mpr ⟨post, hmem, by simp [hpid, huid]⟩
  obtain ⟨q, hq⟩ := Option.isSome_iff_exists.mp hex
  have hpred := List.find?_some hq
  have hqmem := List.mem_of_find?_eq_some hq
  simp only [Bool.and_eq_true, beq_iff_eq] at hpred
  have hqp : q = post :=
    List.inj_on_of_nodup_map hnd hqmem hmem (hpred.1.trans hpid.symm)
  rw [hq, hqp]

/-- Filtering out a post's id from a list with unique ids is exactly
erasing that post. -/
theorem filter_ne_id_eq_erase (a : Post) :
    ∀ l : List Post, (l.map Post.id).Nodup → a ∈ l →
      l.filter (fun p => p.id ≠ a.id) = l.erase a := by
  intro l
  induction l with
  | nil => intro _ ha; exact absurd ha (List.not_mem_nil a)
  | cons x xs ih =>
    intro hnd ha
    rw [List.map_cons, List.nodup_cons] at hnd
    obtain ⟨hx, hxs⟩ := hnd
    by_cases hxa : x = a
    · subst hxa
      rw [List.erase_cons_head]
      have h1 : (x :: xs).filter (fun p => p.id ≠ x.id) =
          xs.filter (fun p => p.id ≠ x.id) := by
        simp [List.filter_cons]
      rw [h1, List.filter_eq_self.mpr]
      intro p hp
      have hne : p.id ≠ x.id := fun hh =>
        hx (hh ▸ List.mem_map_of_mem Post.id hp)
      simp [hne]
    · have hmem : a ∈ xs := by
        rcases List.mem_cons.mp ha with h | h
        · exact absurd h.symm hxa
        · exact h
      have hxid : x.id ≠ a.id := by
        intro hh
        exact hx (hh ▸ List.mem_map_of_mem Post.id hmem)
      rw [List.erase_cons, if_neg (by simpa using hxa),
        List.filter_cons, if_pos (by simpa using hxid), ih hxs hmem]

/-! ### C4: token ttl semantics -/

/-- C4 counterexample: the claim quantifies over every ttl `T`, but at
`T = 0` Python's truthiness test (`timedelta(0)` is falsy) gives the
token the 1-day default expiry, so verifying at time `1 > t0 + T` does
NOT fail with the token-expired error — it succeeds with `exp = 86400`. -/
theorem zero_ttl_token_not_expired :
    decode_jwt_token "k" 1
        (create_access_token "k" ⟨some "a@x.com", none⟩ 0 (some 0)) =
      .ok ⟨some "a@x.com", some 86400⟩ ∧
    ¬ decode_jwt_token "k" 1
        (create_access_token "k" ⟨some "a@x.com", none⟩ 0 (some 0)) =
      .error ⟨401, "Token has expired", true⟩ := by
  refine ⟨rfl, fun h => ?_⟩
  rw [show decode_jwt_token "k" 1
      (create_access_token "k" ⟨some "a@x.com", none⟩ 0 (some 0)) =
    .ok ⟨some "a@x.com", some 86400⟩ from rfl] at h
  exact Except.noConfusion h

/-- C4 amended: a token issued at `now` with a NONZERO ttl `T` carries
the caller's claims with `exp = now + T`; verification succeeds and
returns those claims (subject included) at any time before `now + T` and
fails with the token-expired error (401 "Token has expired") at any time
after `now + T` (a ttl of exactly zero is falsy in Python and instead
takes the 1-day default expiry); a token signed with a different key, or
an undecodable token, fails with the token-invalid error (401 "Invalid
token claims"). -/
theorem token_expiry_semantics (key : String) (data : Claims) (now T t : Int) :
    (T ≠ 0 → t < now + T →
      decode_jwt_token key t (create_access_token key data now (some T)) =
        .ok { data with exp := some (now + T) }) ∧
    (T ≠ 0 → now + T < t →
      decode_jwt_token key t (create_access_token key data now (some T)) =
        .error ⟨401, "Token has expired", true⟩) ∧
    (∀ key', key' ≠ key →
      decode_jwt_token key t (create_access_token key' data now (some T)) =
        .error ⟨401, "Invalid token claims", true⟩) ∧
    (∀ raw, decode_jwt_token key t (Token.malformed raw) =
        .error ⟨401, "Invalid token claims", true⟩) := by
  refine ⟨?_, ?_, ?_, ?_⟩
  · intro hT h
    have hx : ¬ (now + T ≤ t) := not_le.mpr h
    simp [decode_jwt_token, create_access_token, jwt_decode, hT, hx]
  · intro hT h
    have hx : now + T ≤ t := le_of_lt h
    simp [decode_jwt_token, create_access_token, jwt_decode, hT, hx]
  · intro key' hk
    simp [decode_jwt_token, create_access_token, jwt_decode, hk]
  · intro raw
    simp [decode_jwt_token, jwt_decode]

/-- Witness for C4 at ttl 3600 and verification times 3599 and 3601. -/
theorem token_expiry_semantics_witness :
    decode_jwt_token "k" 3599
        (create_access_token "k" ⟨some "a@x.com", none⟩ 0 (some 3600)) =
      .ok ⟨some "a@x.com", some 3600⟩ ∧
    decode_jwt_token "k" 3601
        (create_access_token "k" ⟨some "a@x.com", none⟩ 0 (some 3600)) =
      .error ⟨401, "Token has expired", true⟩ :=
  ⟨(token_expiry_semantics "k" ⟨some "a@x.com", none⟩ 0 3600 3599).1
      (by decide) (by decide),
   (token_expiry_semantics "k" ⟨some "a@x.com", none⟩ 0 3600 3601).2.1
      (by decide) (by decide)⟩

/-! ### C7: issuance expiry and the flows' ttl -/

/-- C7 counterexample: issuing with the given ttl 0 does NOT set the
expiry claim to issue time + 0 — `timedelta(0)` is falsy in Python, so
the conditional expression takes the 1-day default instead. -/
theorem zero_ttl_defaults_to_one_day :
    create_access_token "k" ⟨some "a@x.com", none⟩ 0 (some 0) =
      Token.signed ⟨some "a@x.com", some 86400⟩ "k" ∧
    ¬ create_access_token "k" ⟨some "a@x.com", none⟩ 0 (some 0) =
      Token.signed ⟨some "a@x.com", some 0⟩ "k" :=
  ⟨rfl, by decide⟩

/-- C7 amended: `create_access_token` sets `exp = now + expires_delta`
for any NONZERO delta; when no delta is given — or the given delta is
zero, which the code's truthiness test treats like absent — it sets
`exp = now + 86400` (one day); both the signup and login flows issue
their token with `expires_delta = 3600` (one hour). -/
theorem token_issuance_expiry (key : String) (data : Claims) (now : Int) :
    (∀ T, T ≠ 0 → create_access_token key data now (some T) =
        .signed { data with exp := some (now + T) } key) ∧
    (create_access_token key data now none =
        .signed { data with exp := some (now + 86400) } key) ∧
    (create_access_token key data now (some 0) =
        .signed { data with exp := some (now + 86400) } key) ∧
    (∀ db email password salt, db.findUserByEmail email = none →
      (signup key db email password salt now).1 =
        .ok (create_access_token key ⟨some email, none⟩ now (some 3600))) ∧
    (∀ db email password u, db.findUserByEmail email = some u →
      u.verify_password password = true →
      login key db email password now =
        .ok (create_access_token key ⟨some u.email, none⟩ now (some 3600))) := by
  refine ⟨?_, rfl, rfl, ?_, ?_⟩
  · intro T hT
    simp [create_access_token, hT]
  · intro db email password salt h
    simp [signup, h]
  · intro db email password u h hv
    simp [login, h, hv]

/-- Witness for C7: issuing with the nonzero ttl 3600 sets exp = 3600,
and a fresh signup and a correct login both return the one-hour token. -/
theorem token_issuance_expiry_witness :
    create_access_token "k" ⟨some "a@x.com", none⟩ 0 (some 3600) =
      Token.signed ⟨some "a@x.com", some 3600⟩ "k" ∧
    (signup "k" ⟨[], [], 1, 1⟩ "a@x.com" "password1" 5 0).1 =
      .ok (create_access_token "k" ⟨some "a@x.com", none⟩ 0 (some 3600)) ∧
    login "k" ⟨[⟨1, "a@x.com", ⟨5, "password1"⟩⟩], [], 2, 1⟩
        "a@x.com" "password1" 0 =
      .ok (create_access_token "k" ⟨some "a@x.com", none⟩ 0 (some 3600)) :=
  ⟨(token_issuance_expiry "k" ⟨some "a@x.com", none⟩ 0).1 3600 (by decide),
   (token_issuance_expiry "k" ⟨some "a@x.com", none⟩ 0).2.2.2.1
      ⟨[], [], 1, 1⟩ "a@x.com" "password1" 5 rfl,
   (token_issuance_expiry "k" ⟨some "a@x.com", none⟩ 0).2.2.2.2
      ⟨[⟨1, "a@x.com", ⟨5, "password1"⟩⟩], [], 2, 1⟩ "a@x.com" "password1"
      ⟨1, "a@x.com", ⟨5, "password1"⟩⟩ rfl (by decide)⟩

/-! ### C9: login does not reveal which accounts exist -/

/-- C9: the login error for an unregistered email and the login error for
a registered email with a wrong password are the very same response:
401, detail "Invalid credentials", `WWW-Authenticate: Bearer`. -/
theorem login_error_indistinguishable (key : String) (db : DB)
    (e1 p1 e2 p2 : String) (now1 now2 : Int) (u : User)
    (h1 : db.findUserByEmail e1 = none)
    (h2 : db.findUserByEmail e2 = some u)
    (h3 : u.verify_password p2 = false) :
    login key db e1 p1 now1 = login key db e2 p2 now2 ∧
    login key db e1 p1 now1 = .error ⟨401, "Invalid credentials", true⟩ := by
  constructor
  · simp [login, h1, h2, h3]
  · simp [login, h1]

/-- Witness for C9: unknown email "b@x.com" versus wrong password for the
registered "a@x.com". -/
theorem login_error_indistinguishable_witness :
    login "k" ⟨[⟨1, "a@x.com", ⟨5, "pw"⟩⟩], [], 2, 1⟩ "b@x.com" "x" 0 =
      login "k" ⟨[⟨1, "a@x.com", ⟨5, "pw"⟩⟩], [], 2, 1⟩ "a@x.com" "wrong" 9 :=
  (login_error_indistinguishable "k" ⟨[⟨1, "a@x.com", ⟨5, "pw"⟩⟩], [], 2, 1⟩
    "b@x.com" "x" "a@x.com" "wrong" 0 9 ⟨1, "a@x.com", ⟨5, "pw"⟩⟩
    rfl rfl (by decide)).1

/-! ### C5: duplicate email rejection and signup persistence -/

/-- C5: a signup for an email that is already registered fails with 400
"Email already registered" and leaves the store untouched; a signup for a
fresh email persists exactly one new `User` row whose stored credential
is the salted bcrypt digest of the password (a `BcryptDigest`, not the
plaintext); the new email is registered afterwards, and signups never
remove an existing registration — so every later signup with the same
email keeps failing with the duplicate-email error. -/
theorem signup_duplicate_email_semantics :
    (∀ (key : String) (db : DB) (e p : String) (salt : Nat) (now : Int)
        (u : User), db.findUserByEmail e = some u →
      signup key db e p salt now =
        (.error ⟨400, "Email already registered", false⟩, db)) ∧
    (∀ (key : String) (db : DB) (e p : String) (salt : Nat) (now : Int),
      db.findUserByEmail e = none →
      (signup key db e p salt now).2.users =
        db.users ++ [⟨db.next_user_id, e, bcrypt_hashpw p salt⟩]) ∧
    (∀ (key : String) (db : DB) (e p : String) (salt : Nat) (now : Int)
        (tok : Token) (db' : DB),
      signup key db e p salt now = (.ok tok, db') →
      db'.findUserByEmail e =
        some ⟨db.next_user_id, e, bcrypt_hashpw p salt⟩) ∧
    (∀ (key : String) (db : DB) (e p : String) (salt : Nat) (now : Int)
        (e' : String) (u : User), db.findUserByEmail e' = some u →
      ((signup key db e p salt now).2).findUserByEmail e' = some u) := by
  refine ⟨?_, ?_, ?_, ?_⟩
  · intro key db e p salt now u h
    simp [signup, h]
  · intro key db e p salt now h
    simp [signup, h]
  · intro key db e p salt now tok db' h
    exact signup_ok_findUser key db e p salt now tok db' h
  · intro key db e p salt now e' u h
    cases hfind : db.findUserByEmail e with
    | some w => simpa [signup, hfind] using h
    | none =>
      simp only [signup, hfind]
      unfold DB.findUserByEmail at h ⊢
      exact find?_append_of_some _ _ _ _ h

/-- Witness for C5: a duplicate signup for "a@x.com" fails and changes
nothing; a fresh signup appends the single hashed row. -/
theorem signup_duplicate_email_semantics_witness :
    signup "k" ⟨[⟨1, "a@x.com", ⟨5, "pw"⟩⟩], [], 2, 1⟩ "a@x.com" "q" 6 0 =
      (.error ⟨400, "Email already registered", false⟩,
       ⟨[⟨1, "a@x.com", ⟨5, "pw"⟩⟩], [], 2, 1⟩) ∧
    (signup "k" ⟨[], [], 1, 1⟩ "a@x.com" "password1" 5 0).2.users =
      [] ++ [⟨1, "a@x.com", bcrypt_hashpw "password1" 5⟩] :=
  ⟨signup_duplicate_email_semantics.1 "k"
      ⟨[⟨1, "a@x.com", ⟨5, "pw"⟩⟩], [], 2, 1⟩ "a@x.com" "q" 6 0
      ⟨1, "a@x.com", ⟨5, "pw"⟩⟩ rfl,
   signup_duplicate_email_semantics.2.1 "k" ⟨[], [], 1, 1⟩ "a@x.com"
      "password1" 5 0 rfl⟩

/-! ### C6: authentication against registered credentials -/

/-- C6: after registering (email, password) through `signup`, a login
with the exact pair succeeds with an access token, a login with the same
email and any different password fails with 401 "Invalid credentials",
and a login with an unregistered email fails with the same error.
(bcrypt is modelled as an injective salted digest, so a hash match
coincides with password equality.) -/
theorem login_authentication_semantics :
    (∀ (key : String) (db : DB) (e p : String) (salt : Nat)
        (now now' : Int) (tok : Token) (db' : DB),
      signup key db e p salt now = (.ok tok, db') →
      login key db' e p now' =
        .ok (create_access_token key ⟨some e, none⟩ now' (some 3600))) ∧
    (∀ (key : String) (db : DB) (e p : String) (salt : Nat)
        (now now' : Int) (tok : Token) (db' : DB) (q : String),
      signup key db e p salt now = (.ok tok, db') → q ≠ p →
      login key db' e q now' = .error ⟨401, "Invalid credentials", true⟩) ∧
    (∀ (key : String) (db : DB) (e p : String) (now : Int),
      db.findUserByEmail e = none →
      login key db e p now = .error ⟨401, "Invalid credentials", true⟩) := by
  refine ⟨?_, ?_, ?_⟩
  · intro key db e p salt now now' tok db' h
    have hfind := signup_ok_findUser key db e p salt now tok db' h
    simp [login, hfind, User.verify_password, bcrypt_checkpw, bcrypt_hashpw]
  · intro key db e p salt now now' tok db' q h hq
    have hfind := signup_ok_findUser key db e p salt now tok db' h
    simp [login, hfind, User.verify_password, bcrypt_checkpw, bcrypt_hashpw, hq]
  · intro key db e p now h
    simp [login, h]

/-- Witness for C6: after signing "a@x.com"/"password1" up, login with
the right password succeeds and login with a wrong one fails. -/
theorem login_authentication_semantics_witness :
    login "k" ⟨[⟨1, "a@x.com", bcrypt_hashpw "password1" 5⟩], [], 2, 1⟩
        "a@x.com" "password1" 7 =
      .ok (create_access_token "k" ⟨some "a@x.com", none⟩ 7 (some 3600)) ∧
    login "k" ⟨[⟨1, "a@x.com", bcrypt_hashpw "password1" 5⟩], [], 2, 1⟩
        "a@x.com" "wrong" 7 =
      .error ⟨401, "Invalid credentials", true⟩ :=
  ⟨login_authentication_semantics.1 "k" ⟨[], [], 1, 1⟩ "a@x.com" "password1"
      5 0 7 (Token.signed ⟨some "a@x.com", some 3600⟩ "k")
      ⟨[⟨1, "a@x.com", bcrypt_hashpw "password1" 5⟩], [], 2, 1⟩ rfl,
   login_authentication_semantics.2.1 "k" ⟨[], [], 1, 1⟩ "a@x.com"
      "password1" 5 0 7 (Token.signed ⟨some "a@x.com", some 3600⟩ "k")
      ⟨[⟨1, "a@x.com", bcrypt_hashpw "password1" 5⟩], [], 2, 1⟩ "wrong" rfl
      (by decide)⟩

/-! ### C8: delete is owner-scoped and exact -/

/-- C8: with unique post ids, `DELETE /posts/pid` by `u` succeeds with
204 (`.ok ()`) and the store afterwards is exactly the old store with
that one post erased, whenever a post with id `pid` owned by `u` exists;
when every stored post either has a different id or a different owner,
it fails with 404 "Post not found" and the state (posts included) is
returned unchanged. -/
theorem delete_post_ownership (s : AppState) (u : User) (pid : Nat)
    (hnd : (s.db.posts.map Post.id).Nodup) :
    (∀ post, post ∈ s.db.posts → post.id = pid → post.user_id = u.id →
      delete_post s u pid =
        (.ok (), ⟨{ s.db with posts := s.db.posts.erase post },
                  Cache.pop s.cache u.email⟩)) ∧
    ((∀ post ∈ s.db.posts, post.id ≠ pid ∨ post.user_id ≠ u.id) →
      delete_post s u pid = (.error ⟨404, "Post not found", false⟩, s)) := by
  constructor
  · intro post hmem hpid huid
    have hfind := find?_owned_post s.db.posts hnd post hmem pid u hpid huid
    simp only [delete_post, hfind]
    rw [filter_ne_id_eq_erase post s.db.posts hnd hmem]
  · intro hno
    have hfind : s.db.posts.find?
        (fun p => p.id == pid && p.user_id == u.id) = none := by
      rw [List.find?_eq_none]
      intro p hp
      rcases hno p hp with h | h <;> simp [h]
    simp [delete_post, hfind]

/-- Witness for C8: deleting the caller's own post 1 removes it; the same
request by a different user is a 404 that leaves the post in place. -/
theorem delete_post_ownership_witness :
    delete_post ⟨⟨[], [⟨1, 7, "hi"⟩], 1, 2⟩, []⟩ ⟨7, "a@x.com", ⟨5, "pw"⟩⟩ 1 =
      (.ok (), ⟨⟨[], [], 1, 2⟩, []⟩) ∧
    delete_post ⟨⟨[], [⟨1, 7, "hi"⟩], 1, 2⟩, []⟩ ⟨9, "b@x.com", ⟨5, "pw"⟩⟩ 1 =
      (.error ⟨404, "Post not found", false⟩, ⟨⟨[], [⟨1, 7, "hi"⟩], 1, 2⟩, []⟩) := by
  constructor
  · have h := (delete_post_ownership ⟨⟨[], [⟨1, 7, "hi"⟩], 1, 2⟩, []⟩
      ⟨7, "a@x.com", ⟨5, "pw"⟩⟩ 1 (by decide)).1 ⟨1, 7, "hi"⟩
      (by decide) rfl rfl
    simpa using h
  · exact (delete_post_ownership ⟨⟨[], [⟨1, 7, "hi"⟩], 1, 2⟩, []⟩
      ⟨9, "b@x.com", ⟨5, "pw"⟩⟩ 1 (by decide)).2 (by decide)

/-! ### C10: mutations only touch the caller's cache entry -/

/-- C10: a post create or a post delete by `u` leaves the cache entry of
every other email untouched — same presence, same value, same expiry
(the raw entry, live or not, is unchanged). -/
theorem mutation_cache_frame (s : AppState) (u : User) (text : String)
    (pid : Nat) (e : String) (he : e ≠ u.email) :
    ((create_post s u text).2).cache.entry e = s.cache.entry e ∧
    ((delete_post s u pid).2).cache.entry e = s.cache.entry e := by
  constructor
  · simp only [create_post]
    exact Cache.entry_pop_ne _ _ _ he
  · cases hf : s.db.posts.find?
        (fun p => p.id == pid && p.user_id == u.id) with
    | none => simp [delete_post, hf]
    | some post => simp [delete_post, hf, Cache.entry_pop_ne _ _ _ he]

/-- Each posts-router request preserves state well-formedness: key
counters and uniqueness survive, and — the heart of the invalidation
discipline — every remaining cache entry still equals its user's
committed post list, because reads cache exactly the committed list and
both mutations pop their own entry while only touching their own rows. -/
theorem stepOp_preserves_WF (us : List User) (hus : UsersWF us)
    (s : AppState) (hs : StateWF us s) (op : Op) (hop : op.user ∈ us) :
    StateWF us (stepOp s op) := by
  obtain ⟨hemail, hid⟩ := hus
  obtain ⟨hlt, hnd, hcache⟩ := hs
  cases op with
  | read u now =>
    simp only [Op.user] at hop
    simp only [stepOp]
    cases hr : Cache.read s.cache u.email now with
    | some posts =>
      simp only [read_posts, hr]
      exact ⟨hlt, hnd, hcache⟩
    | none =>
      simp only [read_posts, hr]
      refine ⟨hlt, hnd, ?_⟩
      intro k e he
      by_cases hk : k = u.email
      · subst hk
        rw [Cache.entry_set_self] at he
        refine ⟨u, hop, rfl, ?_⟩
        rw [← Option.some.inj he]
      · rw [Cache.entry_set_ne _ _ _ _ _ hk] at he
        exact hcache k e he
  | create u text =>
    simp only [Op.user] at hop
    simp only [stepOp, create_post]
    refine ⟨?_, ?_, ?_⟩
    · intro p hp
      rcases List.mem_append.mp hp with hp | hp
      · exact Nat.lt_succ_of_lt (hlt p hp)
      · rw [List.mem_singleton.mp hp]
        exact Nat.lt_succ_self _
    · rw [List.map_append, List.nodup_append]
      refine ⟨hnd, List.nodup_singleton _, ?_⟩
      intro x hx hx2
      obtain ⟨p, hp, hpid⟩ := List.mem_map.mp hx
      have h1 : x = s.db.next_post_id := by simpa using hx2
      exact absurd (hpid ▸ h1 ▸ hlt p hp) (lt_irrefl _)
    · intro k e he
      have hk : k ≠ u.email := by
        intro hh
        rw [hh, Cache.entry_pop_self] at he
        exact Option.noConfusion he
      rw [Cache.entry_pop_ne _ _ _ hk] at he
      obtain ⟨w, hw, hwk, hv⟩ := hcache k e he
      refine ⟨w, hw, hwk, ?_⟩
      have hwu : w.id ≠ u.id := by
        intro hh
        have hwu' : w = u := List.inj_on_of_nodup_map hid hw hop hh
        exact hk ((hwu' ▸ hwk).symm ▸ rfl)
      unfold DB.postsOf at hv ⊢
      rw [List.filter_append]
      have hnil : List.filter (fun p => p.user_id == w.id)
          ([⟨s.db.next_post_id, u.id, text⟩] : List Post) = [] := by
        have : (u.id == w.id) = false := by
          simpa using fun hh => hwu hh.symm
        simp [List.filter_cons, this]
      rw [hnil, List.append_nil]
      exact hv
  | delete u pid =>
    simp only [Op.user] at hop
    simp only [stepOp]
    cases hf : s.db.posts.find?
        (fun p => p.id == pid && p.user_id == u.id) with
    | none =>
      simp only [delete_post, hf]
      exact ⟨hlt, hnd, hcache⟩
    | some post =>
      have hpostu : post.user_id = u.id := by
        have h := List.find?_some hf
        simp only [Bool.and_eq_true, beq_iff_eq] at h
        exact h.2
      have hpostmem := List.mem_of_find?_eq_some hf
      simp only [delete_post, hf]
      refine ⟨?_, ?_, ?_⟩
      · intro p hp
        exact hlt p (List.mem_filter.mp hp).1
      · exact List.Nodup.sublist ((List.filter_sublist _).map Post.id) hnd
      · intro k e he
        have hk : k ≠ u.email := by
          intro hh
          rw [hh, Cache.entry_pop_self] at he
          exact Option.noConfusion he
        rw [Cache.entry_pop_ne _ _ _ hk] at he
        obtain ⟨w, hw, hwk, hv⟩ := hcache k e he
        refine ⟨w, hw, hwk, ?_⟩
        unfold DB.postsOf at hv ⊢
        rw [List.filter_filter]
        rw [List.filter_congr (q := fun p => p.user_id == w.id) ?H]
        · exact hv
        case H =>
          intro x hx
          cases hpx : (x.user_id == w.id) with
          | false => simp [hpx]
          | true =>
            have hxw : x.user_id = w.id := by simpa using hpx
            have hxne : x.id ≠ post.id := by
              intro hh
              have hxp : x = post := List.inj_on_of_nodup_map hnd hx hpostmem hh
              have hwid : w.id = u.id := by rw [← hxw, hxp, hpostu]
              have hwu : w = u := List.inj_on_of_nodup_map hid hw hop hwid
              exact hk ((hwu ▸ hwk).symm ▸ rfl)
            simp [hpx, hxne]

/-- Well-formedness is preserved along any request trace. -/
theorem runOps_preserves_WF (us : List User) (hus : UsersWF us) :
    ∀ (ops : List Op) (s : AppState), StateWF us s →
      (∀ op ∈ ops, op.user ∈ us) → StateWF us (runOps s ops) := by
  intro ops
  induction ops with
  | nil => intro s hs _; exact hs
  | cons op rest ih =>
    intro s hs hops
    have h1 : runOps s (op :: rest) = runOps (stepOp s op) rest := rfl
    rw [h1]
    exact ih (stepOp s op)
      (stepOp_preserves_WF us hus s hs op (hops op (List.mem_cons_self op rest)))
      (fun o ho => hops o (List.mem_cons_of_mem _ ho))

/-! ### C2: cache entries are never staler than the last mutation -/

/-- C2: over any single-process trace of reads, creates and deletes by
registered users (pairwise-distinct emails and ids) from a well-formed
initial state, a `GET /posts` at any point — and at any wall-clock time,
so in particular inside a live entry's 5-minute TTL — returns exactly the
currently committed post list of the caller, i.e. the state after every
mutation so far; and concretely, right after a create (which pops the
caller's entry) the created post is in the next read's result even when a
prior read had populated the cache. -/
theorem posts_read_reflects_last_mutation (us : List User)
    (hus : UsersWF us) (s0 : AppState) (h0 : StateWF us s0) (ops : List Op)
    (hops : ∀ op ∈ ops, op.user ∈ us) (u : User) (hu : u ∈ us) (now : Int) :
    (read_posts (runOps s0 ops) u now).1 = (runOps s0 ops).db.postsOf u.id ∧
    (∀ text now2,
      (create_post (runOps s0 ops) u text).1 ∈
        (read_posts (runOps s0 (ops ++ [Op.create u text])) u now2).1) := by
  have hwf := runOps_preserves_WF us hus ops s0 h0 hops
  constructor
  · obtain ⟨-, -, hcache⟩ := hwf
    cases hr : Cache.read (runOps s0 ops).cache u.email now with
    | none => simp [read_posts, hr]
    | some posts =>
      simp only [read_posts, hr]
      unfold Cache.read at hr
      cases he : (runOps s0 ops).cache.entry u.email with
      | none => rw [he] at hr; exact Option.noConfusion hr
      | some en =>
        rw [he] at hr
        dsimp only at hr
        by_cases ht : now < en.expires
        · rw [if_pos ht] at hr
          obtain ⟨w, hw, hwk, hv⟩ := hcache u.email en he
          have hwu : w = u := List.inj_on_of_nodup_map hus.1 hw hu hwk
          rw [← Option.some.inj hr, hv, hwu]
        · rw [if_neg ht] at hr; exact Option.noConfusion hr
  · intro text now2
    have hrun : runOps s0 (ops ++ [Op.create u text]) =
        stepOp (runOps s0 ops) (Op.create u text) := by
      unfold runOps
      rw [List.foldl_append]
      rfl
    rw [hrun]
    show (create_post (runOps s0 ops) u text).1 ∈
      (read_posts (create_post (runOps s0 ops) u text).2 u now2).1
    simp only [create_post, read_posts,
      Cache.read_none_of_entry_none _ _ now2 (Cache.entry_pop_self _ _)]
    unfold DB.postsOf
    rw [List.filter_append]
    refine List.mem_append.mpr (Or.inr ?_)
    simp [List.filter_cons]

/-- Witness for C2: on the sample trace — read (cache fill), create "hi",
read, create "yo", read, delete post 1, all inside the first entry's TTL
window — the final read returns exactly the surviving post. -/
theorem posts_read_reflects_last_mutation_witness :
    (read_posts (runOps s0c opsc) u0 40).1 = [⟨2, 1, "yo"⟩] := by
  have h := (posts_read_reflects_last_mutation [u0]
    ⟨by decide, by decide⟩ s0c
    ⟨by intro p hp; simp [s0c] at hp, by simp [s0c],
     by intro k e he; simp [s0c, Cache.entry] at he⟩
    opsc (by decide) u0 (by decide) 40).1
  rw [h]
  rfl

/-! ### C1: where authentication failures actually surface -/

/-- C1 (observed divergence): every identity-resolution failure that the
code raises as a 401 inside `get_current_user`'s `try` block — wrong
scheme prefix, expired token, invalid signature or undecodable claims,
missing `sub` claim, unknown subject email — is intercepted by the
`except Exception` catch-all (FastAPI's `HTTPException` subclasses
`Exception`) and surfaces as a 500 whose detail wraps `str(e)`, not as
the 401 the spec describes.  Each conjunct evaluates `get_current_user`
at one failure mode against the one-user store. -/
theorem auth_failures_surface_as_500 :
    get_current_user "k" 0 dbOneUser (fun r => Token.malformed r)
        "Token abc" =
      .error ⟨500, "An unexpected error occurred: 401: Invalid token type",
        true⟩ ∧
    get_current_user "k" 100 dbOneUser
        (fun _ => Token.signed ⟨some "a@x.com", some 50⟩ "k") "Bearer t" =
      .error ⟨500, "An unexpected error occurred: 401: Token has expired",
        true⟩ ∧
    get_current_user "k" 0 dbOneUser (fun r => Token.malformed r)
        "Bearer t" =
      .error ⟨500, "An unexpected error occurred: 401: Invalid token claims",
        true⟩ ∧
    get_current_user "k" 0 dbOneUser
        (fun _ => Token.signed ⟨none, some 50⟩ "k") "Bearer t" =
      .error ⟨500, "An unexpected error occurred: 401: Invalid credentials",
        true⟩ ∧
    get_current_user "k" 0 dbOneUser
        (fun _ => Token.signed ⟨some "b@x.com", some 50⟩ "k") "Bearer t" =
      .error ⟨500, "An unexpected error occurred: 401: Invalid credentials",
        true⟩ :=
  ⟨rfl, rfl, rfl, rfl, rfl⟩

/-! ### C3: malformed-header rejection -/

/-- C3 counterexample: the header "Token abc" — scheme prefix present but
wrong — is NOT rejected with the 400 malformed-header error; the code
raises 401 "Invalid token type" which the catch-all surfaces as 500. -/
theorem wrong_scheme_not_rejected_400 :
    get_current_user "k" 0 dbOneUser (fun r => Token.malformed r)
        "Token abc" =
      .error ⟨500, "An unexpected error occurred: 401: Invalid token type",
        true⟩ ∧
    ¬ get_current_user "k" 0 dbOneUser (fun r => Token.malformed r)
        "Token abc" =
      .error ⟨400, "Authorization header is malformed", true⟩ := by
  refine ⟨rfl, fun h => ?_⟩
  rw [show get_current_user "k" 0 dbOneUser (fun r => Token.malformed r)
      "Token abc" =
    .error ⟨500, "An unexpected error occurred: 401: Invalid token type",
      true⟩ from rfl] at h
  simp at h

/-- C3 amended: a header value that does not split into exactly two
space-separated parts is rejected with the 400 malformed-header error; a
two-part header whose scheme prefix is not "Bearer" is also rejected
before any token verification, but via the invalid-token-type path
(written as 401, surfaced as 500 by the catch-all), not with 400.  In
both cases the response is a constant independent of the universally
quantified `key`, `now`, `db` and `wire`, which formalises "before any
token verification is attempted". -/
theorem malformed_header_rejection_amended (key : String) (now : Int)
    (db : DB) (wire : String → Token) (h : String) :
    ((pySplitSpace h).length ≠ 2 →
      get_current_user key now db wire h =
        .error ⟨400, "Authorization header is malformed", true⟩) ∧
    (∀ scheme tok, pySplitSpace h = [scheme, tok] → scheme ≠ "Bearer" →
      get_current_user key now db wire h =
        .error ⟨500, "An unexpected error occurred: 401: Invalid token type",
          true⟩) := by
  constructor
  · intro hlen
    rcases hs : pySplitSpace h with - | ⟨a, - | ⟨b, - | ⟨c, l⟩⟩⟩
    · simp [get_current_user, get_current_user_try, hs]
    · simp [get_current_user, get_current_user_try, hs]
    · exact absurd (by rw [hs]; rfl) hlen
    · simp [get_current_user, get_current_user_try, hs]
  · intro scheme tok hs hscheme
    simp only [get_current_user, get_current_user_try, hs]
    rw [if_pos hscheme]
    rfl

/-- Witness for the amended C3: "Bearerabc" (one part) gets the 400;
"Token xyz" (wrong scheme) gets the 500-wrapped invalid-token-type error. -/
theorem malformed_header_rejection_amended_witness :
    get_current_user "k" 0 dbOneUser (fun r => Token.malformed r)
        "Bearerabc" =
      .error ⟨400, "Authorization header is malformed", true⟩ ∧
    get_current_user "k" 0 dbOneUser (fun r => Token.malformed r)
        "Token xyz" =
      .error ⟨500, "An unexpected error occurred: 401: Invalid token type",
        true⟩ :=
  ⟨(malformed_header_rejection_amended "k" 0 dbOneUser
      (fun r => Token.malformed r) "Bearerabc").1 (by decide),
   (malformed_header_rejection_amended "k" 0 dbOneUser
      (fun r => Token.malformed r) "Token xyz").2 "Token" "xyz" rfl
      (by decide)⟩

/-- Witness for C10: "b@x.com"'s cached entry survives "a@x.com"'s create
and delete. -/
theorem mutation_cache_frame_witness :
    ((create_post ⟨⟨[], [⟨1, 7, "hi"⟩], 1, 2⟩, [("b@x.com", ⟨[], 100⟩)]⟩
        ⟨7, "a@x.com", ⟨5, "pw"⟩⟩ "yo").2).cache.entry "b@x.com" =
      Cache.entry [("b@x.com", ⟨[], 100⟩)] "b@x.com" ∧
    ((delete_post ⟨⟨[], [⟨1, 7, "hi"⟩], 1, 2⟩, [("b@x.com", ⟨[], 100⟩)]⟩
        ⟨7, "a@x.com", ⟨5, "pw"⟩⟩ 1).2).cache.entry "b@x.com" =
      Cache.entry [("b@x.com", ⟨[], 100⟩)] "b@x.com" :=
  mutation_cache_frame ⟨⟨[], [⟨1, 7, "hi"⟩], 1, 2⟩, [("b@x.com", ⟨[], 100⟩)]⟩
    ⟨7, "a@x.com", ⟨5, "pw"⟩⟩ "yo" 1 "b@x.com" (by decide)

end App
